import Mathlib

/-!
Verification of the agent input/output contract and the HumanDesignAgent of
the soma2 repository.

The contract is the pair of Zod schemas `AgentInputSchema` / `AgentOutputSchema`
together with `BaseAgent.validateInput` / `BaseAgent.validateOutput`
(lib/agents/base-agent.ts).  Raw JavaScript values are modelled by `JsonVal`;
absence of an object key models the JavaScript value `undefined`.  Zod object
parsing checks every declared key, collects one issue per violated field
(with its path), strips unknown keys, and succeeds only when no issue was
produced.  JavaScript numbers are modelled as exact rationals.
-/

/-- A JSON-like JavaScript runtime value (`undefined` is modelled as a missing
object key, so it does not appear as a value). -/
inductive JsonVal where
  | str (s : String)
  | num (q : ℚ)
  | boolean (b : Bool)
  | null
  | arr (elems : List JsonVal)
  | obj (fields : List (String × JsonVal))

/-- One Zod validation issue: the path of the offending field and the issue
code (`invalid_type` covers both a wrong runtime type and a missing required
field, mirroring Zod). -/
structure Issue where
  path : List String
  code : String
  deriving DecidableEq

abbrev Issues := List Issue

/-- Issue for a value of the wrong runtime type (or a missing required key). -/
def typeIssue (path : List String) : Issue := ⟨path, "invalid_type"⟩

/-- Runtime-type test: is this value a string? -/
def JsonVal.isStr : JsonVal → Bool
  | .str _ => true
  | _ => false

/-- Runtime-type test: is this value a number? -/
def JsonVal.isNum : JsonVal → Bool
  | .num _ => true
  | _ => false

/-- Property lookup on a JavaScript object, `undefined` as `none`. -/
def lookup (fields : List (String × JsonVal)) (key : String) : Option JsonVal :=
  (fields.find? (fun f => f.1 == key)).map (fun f => f.2)

/-- `z.string()` on a required key. -/
def requiredString (path : List String) : Option JsonVal → Issues × Option String
  | some (.str s) => ([], some s)
  | _ => ([typeIssue path], none)

/-- `z.number()` on a required key. -/
def requiredNumber (path : List String) : Option JsonVal → Issues × Option ℚ
  | some (.num q) => ([], some q)
  | _ => ([typeIssue path], none)

/-- `z.string().optional()`. -/
def optionalString (path : List String) : Option JsonVal → Issues × Option (Option String)
  | none => ([], some none)
  | some (.str s) => ([], some (some s))
  | some _ => ([typeIssue path], none)

/-- Elementwise `z.string()` check inside `z.array(z.string())`, recording the
index of each non-string element in the issue path. -/
def parseStringList (path : List String) (i : Nat) : List JsonVal → Issues × Option (List String)
  | [] => ([], some [])
  | .str s :: rest =>
    let r := parseStringList path (i + 1) rest
    (r.1, r.2.map (fun xs => s :: xs))
  | _ :: rest =>
    let r := parseStringList path (i + 1) rest
    (typeIssue (path ++ [toString i]) :: r.1, none)

/-- `z.array(z.string()).optional()` (the `journalThemes` and `correlations` fields). -/
def optionalStringArray (path : List String) : Option JsonVal → Issues × Option (Option (List String))
  | none => ([], some none)
  | some (.arr elems) =>
    let r := parseStringList path 0 elems
    (r.1, r.2.map some)
  | some _ => ([typeIssue path], none)

/-- `z.record(z.string(), z.any()).optional()` (the `healthMetrics` field):
any plain object passes with its entries untouched. -/
def parseHealthMetrics (path : List String) :
    Option JsonVal → Issues × Option (Option (List (String × JsonVal)))
  | none => ([], some none)
  | some (.obj fields) => ([], some (some fields))
  | some _ => ([typeIssue path], none)

/-- `z.number().min(0).max(1).optional()` (the `confidence` field). -/
def parseConfidence (path : List String) : Option JsonVal → Issues × Option (Option ℚ)
  | none => ([], some none)
  | some (.num q) =>
    let issues := (if q < 0 then [Issue.mk path "too_small"] else [])
      ++ (if 1 < q then [Issue.mk path "too_big"] else [])
    (issues, if issues.isEmpty then some (some q) else none)
  | some _ => ([typeIssue path], none)

/-- Parsed `location` object of `birthData`. -/
structure GeoLocation where
  latitude : ℚ
  longitude : ℚ

/-- Parsed `birthData` object. -/
structure BirthData where
  date : String
  time : String
  location : GeoLocation

/-- Parsed `context` object of `AgentInputSchema`; every field is optional. -/
structure AgentContext where
  birthData : Option BirthData
  healthMetrics : Option (List (String × JsonVal))
  journalThemes : Option (List String)
  userQuery : Option String

/-- Parsed value of `AgentInputSchema` (the type `AgentInput`). -/
structure AgentInput where
  framework : String
  context : AgentContext

/-- Parsed value of `AgentOutputSchema` (the type `AgentOutput`). -/
structure AgentOutput where
  calculation : Option JsonVal
  correlations : Option (List String)
  interpretationSeed : String
  visualizationData : Option JsonVal
  method : String
  confidence : Option ℚ

/-- The inner `location` object schema of `birthData`. -/
def parseLocation (path : List String) : Option JsonVal → Issues × Option GeoLocation
  | some (.obj fields) =>
    let lat := requiredNumber (path ++ ["latitude"]) (lookup fields "latitude")
    let lon := requiredNumber (path ++ ["longitude"]) (lookup fields "longitude")
    (lat.1 ++ lon.1,
      match lat.2, lon.2 with
      | some a, some b => some ⟨a, b⟩
      | _, _ => none)
  | _ => ([typeIssue path], none)

/-- The optional `birthData` object schema. -/
def parseBirthData (path : List String) : Option JsonVal → Issues × Option (Option BirthData)
  | none => ([], some none)
  | some (.obj fields) =>
    let d := requiredString (path ++ ["date"]) (lookup fields "date")
    let t := requiredString (path ++ ["time"]) (lookup fields "time")
    let l := parseLocation (path ++ ["location"]) (lookup fields "location")
    (d.1 ++ t.1 ++ l.1,
      match d.2, t.2, l.2 with
      | some ds, some ts, some ls => some (some ⟨ds, ts, ls⟩)
      | _, _, _ => none)
  | some _ => ([typeIssue path], none)

/-- The required `context` object schema. -/
def parseContext (path : List String) : Option JsonVal → Issues × Option AgentContext
  | some (.obj fields) =>
    let bd := parseBirthData (path ++ ["birthData"]) (lookup fields "birthData")
    let hm := parseHealthMetrics (path ++ ["healthMetrics"]) (lookup fields "healthMetrics")
    let jt := optionalStringArray (path ++ ["journalThemes"]) (lookup fields "journalThemes")
    let uq := optionalString (path ++ ["userQuery"]) (lookup fields "userQuery")
    (bd.1 ++ hm.1 ++ jt.1 ++ uq.1,
      match bd.2, hm.2, jt.2, uq.2 with
      | some b, some h, some j, some u => some ⟨b, h, j, u⟩
      | _, _, _, _ => none)
  | _ => ([typeIssue path], none)

/-- `AgentInputSchema.parse`, i.e. `BaseAgent.validateInput`: structural
validation of a raw value, collecting one issue per violated field and
stripping unknown keys.  `Except.error` models the thrown `ZodError`. -/
def validateInput (raw : JsonVal) : Except Issues AgentInput :=
  match raw with
  | .obj fields =>
    let fw := requiredString ["framework"] (lookup fields "framework")
    let ctx := parseContext ["context"] (lookup fields "context")
    let issues := fw.1 ++ ctx.1
    match fw.2, ctx.2 with
    | some f, some c => if issues.isEmpty then .ok ⟨f, c⟩ else .error issues
    | _, _ => .error issues
  | _ => .error [typeIssue []]

/-- `AgentOutputSchema.parse`, i.e. `BaseAgent.validateOutput`. -/
def validateOutput (raw : JsonVal) : Except Issues AgentOutput :=
  match raw with
  | .obj fields =>
    let corr := optionalStringArray ["correlations"] (lookup fields "correlations")
    let seed := requiredString ["interpretationSeed"] (lookup fields "interpretationSeed")
    let meth := requiredString ["method"] (lookup fields "method")
    let conf := parseConfidence ["confidence"] (lookup fields "confidence")
    let issues := corr.1 ++ seed.1 ++ meth.1 ++ conf.1
    match corr.2, seed.2, meth.2, conf.2 with
    | some c, some s, some m, some cf =>
      if issues.isEmpty then
        .ok ⟨lookup fields "calculation", c, s, lookup fields "visualizationData", m, cf⟩
      else .error issues
    | _, _, _, _ => .error issues
  | _ => .error [typeIssue []]

/-- Canonical JSON encoding of a parsed `location`. -/
def locationToJson (l : GeoLocation) : JsonVal :=
  .obj [("latitude", .num l.latitude), ("longitude", .num l.longitude)]

/-- Canonical JSON encoding of a parsed `birthData`. -/
def birthDataToJson (b : BirthData) : JsonVal :=
  .obj [("date", .str b.date), ("time", .str b.time), ("location", locationToJson b.location)]

/-- Canonical JSON encoding of a parsed `context`: optional fields are present
exactly when they are `some`. -/
def contextToJson (c : AgentContext) : JsonVal :=
  .obj ((match c.birthData with
      | some b => [("birthData", birthDataToJson b)]
      | none => [])
    ++ (match c.healthMetrics with
      | some h => [("healthMetrics", JsonVal.obj h)]
      | none => [])
    ++ (match c.journalThemes with
      | some j => [("journalThemes", JsonVal.arr (j.map JsonVal.str))]
      | none => [])
    ++ (match c.userQuery with
      | some u => [("userQuery", JsonVal.str u)]
      | none => []))

/-- Canonical JSON encoding of a parsed `AgentInput`. -/
def inputToJson (i : AgentInput) : JsonVal :=
  .obj [("framework", .str i.framework), ("context", contextToJson i.context)]

/-- Canonical JSON encoding of a parsed `AgentOutput`. -/
def outputToJson (o : AgentOutput) : JsonVal :=
  .obj ((match o.calculation with
      | some v => [("calculation", v)]
      | none => [])
    ++ (match o.correlations with
      | some cs => [("correlations", JsonVal.arr (cs.map JsonVal.str))]
      | none => [])
    ++ [("interpretationSeed", JsonVal.str o.interpretationSeed)]
    ++ (match o.visualizationData with
      | some v => [("visualizationData", v)]
      | none => [])
    ++ [("method", JsonVal.str o.method)]
    ++ (match o.confidence with
      | some q => [("confidence", JsonVal.num q)]
      | none => []))

/-!
The `HumanDesignAgent` (lib/agents/human-design-agent.ts).  JavaScript
numbers are exact rationals; `Math.floor` is `Int.floor`; the JavaScript `%`
operator is truncated remainder (`jsMod`).
-/

/-- JavaScript `Math.trunc`, rounding toward zero (what `%` divides by). -/
def jsTrunc (q : ℚ) : ℤ := if q < 0 then -⌊-q⌋ else ⌊q⌋

/-- The JavaScript `%` operator on numbers: remainder with the sign of the
dividend, `a % b = a - b * trunc(a / b)`. -/
def jsMod (a b : ℚ) : ℚ := a - b * (jsTrunc (a / b) : ℚ)

/-- A thrown JavaScript error: either a Zod validation failure or a plain
`Error` with a message. -/
inductive JsError where
  | zodError (issues : Issues)
  | error (message : String)

namespace HumanDesignAgent

/-- `HumanDesignAgent.frameworks`. -/
def frameworks : List String := ["human-design", "gene-keys", "i-ching"]

/-- `HumanDesignAgent.calculatePlanetaryPositions`: a fixed mock table of
planetary longitudes, independent of the birth data. -/
def calculatePlanetaryPositions (_birthData : BirthData) : List (String × ℚ) :=
  [("Sun", 120.5), ("Earth", 300.5), ("Moon", 45.2), ("Mercury", 110.8),
   ("Venus", 95.3), ("Mars", 200.7), ("Jupiter", 150.4), ("Saturn", 275.9),
   ("Uranus", 330.1), ("Neptune", 60.6), ("Pluto", 180.2)]

/-- Result of `longitudeToGate`. -/
structure GateLine where
  gate : ℤ
  line : ℤ

/-- `HumanDesignAgent.longitudeToGate`: 64 gates over 360 degrees. -/
def longitudeToGate (longitude : ℚ) : GateLine :=
  let degreesPerGate : ℚ := 360 / 64
  let gateNumber := ⌊longitude / degreesPerGate⌋ + 1
  let lineNumber := ⌊jsMod longitude degreesPerGate / degreesPerGate * 6⌋ + 1
  ⟨gateNumber, lineNumber⟩

/-- The gate-range-to-center table of `determineCenters`, in source order. -/
def centerMapping : List (String × List ℤ) :=
  [("Head", [61, 63, 64]),
   ("Ajna", [47, 24, 4, 17, 43, 11]),
   ("Throat", [62, 23, 56, 35, 12, 45, 33, 8, 31, 20, 16]),
   ("G Center", [7, 1, 13, 10, 15, 46, 25, 51]),
   ("Sacral", [5, 14, 29, 59, 9, 3, 42, 27, 34]),
   ("Solar Plexus", [6, 37, 22, 36, 30, 55, 49]),
   ("Spleen", [48, 57, 44, 50, 32, 28, 18]),
   ("Heart/Ego", [21, 40, 26, 51]),
   ("Root", [52, 53, 54, 38, 39, 41, 19, 58, 60])]

/-- `Object.keys(centerMapping)`: the nine center names. -/
def allCenters : List String := centerMapping.map Prod.fst

/-- `HumanDesignAgent.determineCenters`: a center is defined when some gate of
the chart falls in its range; the rest are undefined.  Returns
`(definedCenters, undefinedCenters)` in table order. -/
def determineCenters (gates : List ℤ) : List String × List String :=
  let defined :=
    (centerMapping.filter (fun entry => gates.any (fun gate => entry.2.contains gate))).map
      Prod.fst
  let undefinedCenters := allCenters.filter (fun c => !(defined.contains c))
  (defined, undefinedCenters)

/-- Result record of `determineType`. -/
structure TypeInfo where
  type : String
  strategy : String
  authority : String

/-- `HumanDesignAgent.determineType`. -/
def determineType (definedCenters : List String) : TypeInfo :=
  let hasSacral := definedCenters.contains "Sacral"
  let hasThroat := definedCenters.contains "Throat"
  let hasHeart := definedCenters.contains "Heart/Ego"
  let hasSolarPlexus := definedCenters.contains "Solar Plexus"
  if definedCenters.length = 0 then
    ⟨"Reflector", "Wait 28 days (lunar cycle)", "Lunar Authority"⟩
  else if hasSacral && hasThroat then
    ⟨"Manifesting Generator", "Respond & Inform",
      if hasSolarPlexus then "Emotional Authority" else "Sacral Authority"⟩
  else if hasSacral then
    ⟨"Generator", "Wait to Respond",
      if hasSolarPlexus then "Emotional Authority" else "Sacral Authority"⟩
  else if hasThroat && (hasHeart || definedCenters.contains "G Center") then
    ⟨"Manifestor", "Inform before acting",
      if hasSolarPlexus then "Emotional Authority" else "Splenic Authority"⟩
  else
    ⟨"Projector", "Wait for Invitation",
      if hasSolarPlexus then "Emotional Authority"
      else if definedCenters.contains "Spleen" then "Splenic Authority"
      else "Self-Projected Authority"⟩

/-- One entry of the chart's `gates` array. -/
structure PlanetGate where
  gate : ℤ
  line : ℤ
  planet : String
  design : Bool

/-- One entry of the chart's `channels` array (always empty in the source). -/
structure Channel where
  channel : String
  gatePair : ℤ × ℤ
  defined : Bool

/-- The `HumanDesignChart` interface. -/
structure HumanDesignChart where
  type : String
  strategy : String
  authority : String
  profile : String
  definedCenters : List String
  undefinedCenters : List String
  gates : List PlanetGate
  channels : List Channel
  incarnationCross : String

end HumanDesignAgent

/-- `JSON.stringify` (used only to splice health metrics into the prompt;
number formatting of the model differs harmlessly from JavaScript). -/
def jsonStringify : JsonVal → String
  | .str s => "\"" ++ s ++ "\""
  | .num q => toString q
  | .boolean b => if b then "true" else "false"
  | .null => "null"
  | .arr elems =>
    "[" ++ String.intercalate "," (elems.attach.map (fun ⟨e, _⟩ => jsonStringify e)) ++ "]"
  | .obj fields =>
    "\x7b" ++ String.intercalate ","
        (fields.attach.map (fun ⟨(k, v), _⟩ => "\"" ++ k ++ "\":" ++ jsonStringify v))
      ++ "\x7d"
termination_by v => sizeOf v
decreasing_by
  all_goals simp_wf
  · have h := List.sizeOf_lt_of_mem (by assumption : e ∈ elems)
    omega
  · have h := List.sizeOf_lt_of_mem (by assumption : (k, v) ∈ fields)
    simp at h
    omega

namespace HumanDesignAgent

/-- Canonical JSON encoding of one `gates` entry. -/
def planetGateToJson (g : PlanetGate) : JsonVal :=
  .obj [("gate", .num g.gate), ("line", .num g.line), ("planet", .str g.planet),
    ("design", .boolean g.design)]

/-- Canonical JSON encoding of one `channels` entry. -/
def channelToJson (c : Channel) : JsonVal :=
  .obj [("channel", .str c.channel), ("gates", .arr [.num c.gatePair.1, .num c.gatePair.2]),
    ("defined", .boolean c.defined)]

/-- Canonical JSON encoding of a `HumanDesignChart` (the opaque `calculation`
payload of the agent's output). -/
def chartToJson (chart : HumanDesignChart) : JsonVal :=
  .obj [("type", .str chart.type), ("strategy", .str chart.strategy),
    ("authority", .str chart.authority), ("profile", .str chart.profile),
    ("definedCenters", .arr (chart.definedCenters.map JsonVal.str)),
    ("undefinedCenters", .arr (chart.undefinedCenters.map JsonVal.str)),
    ("gates", .arr (chart.gates.map planetGateToJson)),
    ("channels", .arr (chart.channels.map channelToJson)),
    ("incarnationCross", .str chart.incarnationCross)]

/-- `HumanDesignAgent.generateInterpretationPrompt`: the interpretation-seed
template string, trimmed. -/
def generateInterpretationPrompt (chart : HumanDesignChart) (context : AgentContext) : String :=
  ("\nYou are a Human Design expert providing personalized, somatic insights.\n\n"
    ++ "## User\x27s Chart\n"
    ++ "- Type: " ++ chart.type ++ "\n"
    ++ "- Strategy: " ++ chart.strategy ++ "\n"
    ++ "- Authority: " ++ chart.authority ++ "\n"
    ++ "- Profile: " ++ chart.profile ++ "\n"
    ++ "- Defined Centers: " ++ String.intercalate ", " chart.definedCenters ++ "\n"
    ++ "- Undefined Centers: " ++ String.intercalate ", " chart.undefinedCenters ++ "\n"
    ++ "- Key Gates: "
    ++ String.intercalate ", "
        ((chart.gates.take 3).map (fun g => toString g.gate ++ "." ++ toString g.line))
    ++ "\n\n## Context\n"
    ++ (match context.userQuery with
      | some q => "User Query: " ++ q
      | none => "Provide overview")
    ++ "\n"
    ++ (match context.healthMetrics with
      | some h => "Health Data: " ++ jsonStringify (.obj h)
      | none => "")
    ++ "\n\n## Instructions\n"
    ++ "1. Explain their " ++ chart.type ++ " nature with empathy and somatic grounding\n"
    ++ "2. Connect undefined centers to where they may absorb energy from others\n"
    ++ "3. Relate strategy to practical daily scenarios\n"
    ++ "4. If health data present, correlate with HD centers (e.g., undefined Root = rest needs)\n"
    ++ "5. Use trauma-informed language; balance light/shadow aspects\n"
    ++ "6. End with one actionable somatic practice aligned with their design\n\n"
    ++ "Keep response conversational, embodied, and empowering.\n    ").trim

/-- `HumanDesignAgent.execute`: validate the input, require birth data,
compute the chart, and validate the produced output at the contract boundary.
A thrown error is an `Except.error`. -/
def execute (input : AgentInput) : Except JsError AgentOutput :=
  match validateInput (inputToJson input) with
  | .error issues => .error (.zodError issues)
  | .ok validated =>
    match validated.context.birthData with
    | none => .error (.error "Birth data required for Human Design calculation")
    | some birthData =>
      let planets := calculatePlanetaryPositions birthData
      let personalityGates := (planets.take 5).map (fun p =>
        let gl := longitudeToGate p.2
        PlanetGate.mk gl.gate gl.line p.1 false)
      let designGates := (planets.drop 5).map (fun p =>
        let gl := longitudeToGate p.2
        PlanetGate.mk gl.gate gl.line p.1 true)
      let allGates := personalityGates ++ designGates
      let gateNumbers := allGates.map (fun g => g.gate)
      let centers := determineCenters gateNumbers
      let info := determineType centers.1
      let sunGate := personalityGates.getD 0 ⟨0, 0, "", false⟩
      let earthGate := personalityGates.getD 1 ⟨0, 0, "", false⟩
      let profile := toString sunGate.line ++ "/" ++ toString earthGate.line
      let chart : HumanDesignChart :=
        ⟨info.type, info.strategy, info.authority, profile, centers.1, centers.2, allGates, [],
          "Right Angle Cross of " ++ toString sunGate.gate ++ "/" ++ toString earthGate.gate⟩
      let interpretationSeed := generateInterpretationPrompt chart validated.context
      let output : AgentOutput :=
        { calculation := some (chartToJson chart)
          correlations := some
            (["Gate " ++ toString sunGate.gate ++ " → I Ching Hexagram " ++ toString sunGate.gate,
              "Gate " ++ toString sunGate.gate ++ " → Gene Key " ++ toString sunGate.gate]
              ++ centers.1.map (fun c => c ++ " Center → Chakra correlation"))
          interpretationSeed := interpretationSeed
          visualizationData := none
          method := "astronomical-calculation"
          confidence := some 0.95 }
      match validateOutput (outputToJson output) with
      | .ok validatedOutput => .ok validatedOutput
      | .error issues => .error (.zodError issues)

end HumanDesignAgent

/-!
Pipeline planning.  The repository contains no executor implementation; the
definitions below are modelled from the specification's Pipeline Executor
section and are used only for the planning-phase claims.
-/

/-- Modelled from the spec: a `PipelineStage` is an agent identifier plus the
names of the prior stages whose outputs it needs (the executor itself is not
in the source tree; stage names are the keys of the merged context, so they
are distinct within one pipeline). -/
structure PipelineStage where
  name : String
  deps : List String

/-- Modelled from the spec: the `CycleError` raised when no topological order
of the stages exists; it carries the names of the stages that could not be
ordered. -/
structure CycleError where
  stuck : List String

/-- Stage `a` declares a dependency on stage `b`. -/
def DependsOn (stages : List PipelineStage) (a b : String) : Prop :=
  ∃ s ∈ stages, s.name = a ∧ b ∈ s.deps

instance (stages : List PipelineStage) (a b : String) : Decidable (DependsOn stages a b) :=
  List.decidableBEx _ stages

/-- The stage dependency graph contains a (directed) cycle: a nonempty list of
stage names in which every entry depends on the next, cyclically. -/
def HasCycle (stages : List PipelineStage) : Prop :=
  ∃ c : List String, c ≠ [] ∧ ∀ p ∈ c.zip (c.rotate 1), DependsOn stages p.1 p.2

/-- Modelled from the spec, planning phase: a stage is ready when every
dependency has already been placed in the order. -/
def readyStage (placed : List String) (remaining : List PipelineStage) : Option PipelineStage :=
  remaining.find? (fun s => s.deps.all (fun d => placed.contains d))

/-- Modelled from the spec, planning phase: repeatedly place a ready stage;
when none is ready (or the fuel budget — the stage count — is exhausted) the
remaining stages form a cycle and planning fails with `CycleError`. -/
def planAux : Nat → List String → List PipelineStage → Except CycleError (List String)
  | _, placed, [] => .ok placed.reverse
  | 0, _, remaining => .error ⟨remaining.map (fun s => s.name)⟩
  | fuel + 1, placed, remaining =>
    match readyStage placed remaining with
    | none => .error ⟨remaining.map (fun s => s.name)⟩
    | some s => planAux fuel (s.name :: placed) (remaining.filter (fun t => t.name != s.name))

/-- Modelled from the spec: topologically order the stages of a pipeline,
failing with `CycleError` when no valid order exists. -/
def plan (stages : List PipelineStage) : Except CycleError (List String) :=
  planAux stages.length [] stages

/-- Modelled from the spec: run a pipeline — plan first, and only on success
execute the stages in the planned order.  The second component is the list of
stages that actually executed (so a planning failure executes nothing). -/
def runPipeline (stages : List PipelineStage) :
    Except CycleError (List String) × List String :=
  match plan stages with
  | .error e => (.error e, [])
  | .ok order => (.ok order, order)

/-!
Concrete example values used by individual claims.
-/

/-- The birth data the chat interface uses as its mock default. -/
def bd0 : BirthData := ⟨"1990-01-15", "14:30", ⟨40.7128, -74.006⟩⟩

/-- A request naming the unregistered framework "alpha" but carrying valid
birth data. -/
def reqAlpha : AgentInput := ⟨"alpha", ⟨some bd0, none, none, some "hello"⟩⟩

/-- A registered-framework request with birth data, as the chat interface
builds it. -/
def reqHD : AgentInput :=
  ⟨"human-design", ⟨some bd0, none, none, some "Tell me about my design"⟩⟩

/-- A raw request carrying an upstream-results map under the extra context key
`previousResults`, which `AgentInputSchema` does not declare. -/
def upstreamRaw : JsonVal :=
  .obj [("framework", .str "human-design"),
    ("context", .obj [("userQuery", .str "hello"),
      ("previousResults", .obj [("astrology", .str "upstream seed")])])]

/-- The parsed value `validateInput` produces for `upstreamRaw`: the
`previousResults` key is stripped. -/
def upstreamParsed : AgentInput := ⟨"human-design", ⟨none, none, none, some "hello"⟩⟩

/-- A raw response whose `interpretationSeed` is the empty string. -/
def emptySeedRaw : JsonVal :=
  .obj [("interpretationSeed", .str ""), ("method", .str "llm-synthesis")]

/-- The two-stage pipeline `A -> B -> A` of the spec's cycle scenario. -/
def cyclePipeline : List PipelineStage := [⟨"A", ["B"]⟩, ⟨"B", ["A"]⟩]

/-!
Theorems.  Concrete rational evaluation needs the Batteries rational
operations to unfold, so their reducibility is restored locally.
-/

attribute [local semireducible] Rat.ofScientific Rat.mul Rat.inv Rat.add Rat.sub

theorem parseStringList_map (path : List String) (xs : List String) :
    ∀ i, parseStringList path i (xs.map JsonVal.str) = ([], some xs) := by
  induction xs with
  | nil => intro i; rfl
  | cons x xs ih => intro i; simp [parseStringList, ih]

theorem parseLocation_roundtrip (path : List String) (l : GeoLocation) :
    parseLocation path (some (locationToJson l)) = ([], some l) := by
  simp [parseLocation, locationToJson, requiredNumber, lookup]

theorem parseBirthData_roundtrip (path : List String) (b : BirthData) :
    parseBirthData path (some (birthDataToJson b)) = ([], some (some b)) := by
  simp [parseBirthData, birthDataToJson, requiredString, lookup, parseLocation_roundtrip]

theorem parseBirthData_none (path : List String) : parseBirthData path none = ([], some none) :=
  rfl

theorem parseContext_roundtrip (path : List String) (c : AgentContext) :
    parseContext path (some (contextToJson c)) = ([], some c) := by
  obtain ⟨bd, hm, jt, uq⟩ := c
  cases bd <;> cases hm <;> cases jt <;> cases uq <;>
    simp [parseContext, contextToJson, parseBirthData_roundtrip, parseBirthData_none,
      parseHealthMetrics, optionalStringArray, optionalString, parseStringList_map, lookup]

theorem validateInput_roundtrip (r : AgentInput) :
    validateInput (inputToJson r) = .ok r := by
  obtain ⟨fw, ctx⟩ := r
  simp [validateInput, inputToJson, requiredString, lookup, parseContext_roundtrip]

theorem validateOutput_roundtrip (o : AgentOutput)
    (h : ∀ q ∈ o.confidence, 0 ≤ q ∧ q ≤ 1) :
    validateOutput (outputToJson o) = .ok o := by
  obtain ⟨calcu, corr, seed, vis, meth, conf⟩ := o
  cases calcu <;> cases corr <;> cases vis <;> cases conf <;>
    simp_all [validateOutput, outputToJson, optionalStringArray, optionalString, requiredString,
      parseConfidence, parseStringList_map, lookup, not_lt]

theorem requiredString_none (path : List String) :
    requiredString path none = ([typeIssue path], none) := rfl

theorem requiredString_not_str (path : List String) (v : JsonVal) (h : v.isStr = false) :
    requiredString path (some v) = ([typeIssue path], none) := by
  cases v <;> simp_all [requiredString, JsonVal.isStr]

theorem requiredNumber_not_num (path : List String) (v : JsonVal) (h : v.isNum = false) :
    requiredNumber path (some v) = ([typeIssue path], none) := by
  cases v <;> simp_all [requiredNumber, JsonVal.isNum]

theorem requiredString_some_inv (path : List String) (x : Option JsonVal) (issues : Issues)
    (s : String) (h : requiredString path x = (issues, some s)) : x = some (.str s) := by
  match x with
  | none => simp [requiredString] at h
  | some (.str t) => simp [requiredString] at h; rw [h.2]
  | some (.num q) => simp [requiredString] at h
  | some (.boolean b) => simp [requiredString] at h
  | some .null => simp [requiredString] at h
  | some (.arr es) => simp [requiredString] at h
  | some (.obj fs) => simp [requiredString] at h

/-- C1: a raw response object lacking the `interpretationSeed` key or the
`method` key is rejected by `validateOutput` with a validation error whose
issue list names each missing field; it is never returned as a valid
`AgentOutput`. -/
theorem validateOutput_rejects_missing_required_fields
    (fields : List (String × JsonVal))
    (h : lookup fields "interpretationSeed" = none ∨ lookup fields "method" = none) :
    ∃ issues, validateOutput (.obj fields) = .error issues
      ∧ (lookup fields "interpretationSeed" = none → typeIssue ["interpretationSeed"] ∈ issues)
      ∧ (lookup fields "method" = none → typeIssue ["method"] ∈ issues) := by
  rcases hcorr : optionalStringArray ["correlations"] (lookup fields "correlations") with ⟨ci, cv⟩
  rcases hseed : requiredString ["interpretationSeed"] (lookup fields "interpretationSeed")
    with ⟨si, sv⟩
  rcases hmeth : requiredString ["method"] (lookup fields "method") with ⟨mi, mv⟩
  rcases hconf : parseConfidence ["confidence"] (lookup fields "confidence") with ⟨fi, fv⟩
  have hsi : lookup fields "interpretationSeed" = none →
      si = [typeIssue ["interpretationSeed"]] ∧ sv = none := by
    intro hm
    rw [hm, requiredString_none] at hseed
    injection hseed with h1 h2
    exact ⟨h1.symm, h2.symm⟩
  have hmi : lookup fields "method" = none → mi = [typeIssue ["method"]] ∧ mv = none := by
    intro hm
    rw [hm, requiredString_none] at hmeth
    injection hmeth with h1 h2
    exact ⟨h1.symm, h2.symm⟩
  refine ⟨ci ++ si ++ mi ++ fi, ?_, ?_, ?_⟩
  · simp only [validateOutput, hcorr, hseed, hmeth, hconf]
    rcases h with hm | hm
    · rcases hsi hm with ⟨rfl, rfl⟩
      cases cv <;> simp
    · rcases hmi hm with ⟨rfl, rfl⟩
      cases cv <;> cases sv <;> simp
  · intro hm
    rcases hsi hm with ⟨rfl, -⟩
    simp
  · intro hm
    rcases hmi hm with ⟨rfl, -⟩
    simp

/-- C1 witness: the empty response object lacks both required fields and is
rejected with both fields named. -/
theorem validateOutput_rejects_missing_required_fields_witness :
    (lookup ([] : List (String × JsonVal)) "interpretationSeed" = none
      ∨ lookup ([] : List (String × JsonVal)) "method" = none)
    ∧ ∃ issues, validateOutput (.obj []) = .error issues
      ∧ (lookup ([] : List (String × JsonVal)) "interpretationSeed" = none →
          typeIssue ["interpretationSeed"] ∈ issues)
      ∧ (lookup ([] : List (String × JsonVal)) "method" = none →
          typeIssue ["method"] ∈ issues) :=
  ⟨Or.inl rfl, validateOutput_rejects_missing_required_fields [] (Or.inl rfl)⟩

/-- C3 counterexample: `validateOutput` accepts a response whose
`interpretationSeed` is the empty string, contradicting the claimed non-empty
requirement. -/
theorem validateOutput_accepts_empty_seed :
    validateOutput emptySeedRaw = .ok ⟨none, none, "", none, "llm-synthesis", none⟩ := rfl

/-- C3 amended: `validateOutput` requires `interpretationSeed` to be present
and a string and returns it verbatim, but does not require it to be
non-empty. -/
theorem validateOutput_seed_verbatim (fields : List (String × JsonVal)) (o : AgentOutput)
    (h : validateOutput (.obj fields) = .ok o) :
    lookup fields "interpretationSeed" = some (.str o.interpretationSeed) := by
  rcases hcorr : optionalStringArray ["correlations"] (lookup fields "correlations") with ⟨ci, cv⟩
  rcases hseed : requiredString ["interpretationSeed"] (lookup fields "interpretationSeed")
    with ⟨si, sv⟩
  rcases hmeth : requiredString ["method"] (lookup fields "method") with ⟨mi, mv⟩
  rcases hconf : parseConfidence ["confidence"] (lookup fields "confidence") with ⟨fi, fv⟩
  simp only [validateOutput, hcorr, hseed, hmeth, hconf] at h
  cases cv <;> cases sv <;> cases mv <;> cases fv <;> simp at h
  split at h
  · injection h with h1
    rw [← h1]
    exact requiredString_some_inv _ _ _ _ hseed
  · exact absurd h (by simp)

/-- C3 amended witness: a concrete accepted response returns its seed
verbatim. -/
theorem validateOutput_seed_verbatim_witness :
    validateOutput (.obj [("interpretationSeed", JsonVal.str "hi"), ("method", JsonVal.str "m")])
      = .ok ⟨none, none, "hi", none, "m", none⟩
    ∧ lookup [("interpretationSeed", JsonVal.str "hi"), ("method", JsonVal.str "m")]
        "interpretationSeed"
      = some (.str (AgentOutput.mk none none "hi" none "m" none).interpretationSeed) :=
  ⟨rfl, validateOutput_seed_verbatim _ _ rfl⟩

theorem parseLocation_bad_latitude (path : List String) (locf : List (String × JsonVal))
    (w : JsonVal) (hlat : lookup locf "latitude" = some w) (hw : w.isNum = false) :
    typeIssue (path ++ ["latitude"]) ∈ (parseLocation path (some (.obj locf))).1
    ∧ (parseLocation path (some (.obj locf))).2 = none := by
  simp only [parseLocation, hlat, requiredNumber_not_num _ _ hw]
  simp

theorem parseBirthData_bad_latitude (path : List String)
    (bdf locf : List (String × JsonVal)) (w : JsonVal)
    (hloc : lookup bdf "location" = some (.obj locf))
    (hlat : lookup locf "latitude" = some w) (hw : w.isNum = false) :
    typeIssue (path ++ ["location", "latitude"]) ∈ (parseBirthData path (some (.obj bdf))).1
    ∧ (parseBirthData path (some (.obj bdf))).2 = none := by
  have h := parseLocation_bad_latitude (path ++ ["location"]) locf w hlat hw
  simp only [parseBirthData, hloc]
  constructor
  · apply List.mem_append_right
    simpa using h.1
  · cases hd : (requiredString (path ++ ["date"]) (lookup bdf "date")).2 <;>
      cases ht : (requiredString (path ++ ["time"]) (lookup bdf "time")).2 <;>
      simp [h.2]

theorem parseContext_bad_latitude (path : List String)
    (ctxf bdf locf : List (String × JsonVal)) (w : JsonVal)
    (hbd : lookup ctxf "birthData" = some (.obj bdf))
    (hloc : lookup bdf "location" = some (.obj locf))
    (hlat : lookup locf "latitude" = some w) (hw : w.isNum = false) :
    typeIssue (path ++ ["birthData", "location", "latitude"])
      ∈ (parseContext path (some (.obj ctxf))).1
    ∧ (parseContext path (some (.obj ctxf))).2 = none := by
  have h := parseBirthData_bad_latitude (path ++ ["birthData"]) bdf locf w hloc hlat hw
  simp only [parseContext, hbd]
  constructor
  · apply List.mem_append_left
    apply List.mem_append_left
    apply List.mem_append_left
    simpa using h.1
  · rw [h.2]

/-- C4: when a raw request violates several field constraints at once — here a
non-string `framework` together with a non-numeric
`context.birthData.location.latitude` — the single validation error issued by
`validateInput` lists every violated field, not just the first one. -/
theorem validateInput_lists_every_violation (fields ctxf bdf locf : List (String × JsonVal))
    (v w : JsonVal)
    (hfw : lookup fields "framework" = some v) (hv : v.isStr = false)
    (hctx : lookup fields "context" = some (.obj ctxf))
    (hbd : lookup ctxf "birthData" = some (.obj bdf))
    (hloc : lookup bdf "location" = some (.obj locf))
    (hlat : lookup locf "latitude" = some w) (hw : w.isNum = false) :
    ∃ issues, validateInput (.obj fields) = .error issues
      ∧ typeIssue ["framework"] ∈ issues
      ∧ typeIssue ["context", "birthData", "location", "latitude"] ∈ issues := by
  have h := parseContext_bad_latitude ["context"] ctxf bdf locf w hbd hloc hlat hw
  refine ⟨[typeIssue ["framework"]] ++ (parseContext ["context"] (some (.obj ctxf))).1, ?_, ?_, ?_⟩
  · simp only [validateInput, hfw, hctx, requiredString_not_str _ _ hv]
  · simp
  · apply List.mem_append_right
    simpa using h.1

/-- C4 witness: a concrete raw request with a numeric `framework` and a string
`latitude` produces one error naming both fields. -/
theorem validateInput_lists_every_violation_witness :
    lookup [("framework", JsonVal.num 1),
        ("context", JsonVal.obj [("birthData", JsonVal.obj [("date", JsonVal.str "1990-01-15"),
          ("time", JsonVal.str "14:30"),
          ("location", JsonVal.obj [("latitude", JsonVal.str "forty"),
            ("longitude", JsonVal.num 2)])])])] "framework" = some (JsonVal.num 1)
    ∧ ∃ issues,
        validateInput (.obj [("framework", JsonVal.num 1),
          ("context", JsonVal.obj [("birthData", JsonVal.obj [("date", JsonVal.str "1990-01-15"),
            ("time", JsonVal.str "14:30"),
            ("location", JsonVal.obj [("latitude", JsonVal.str "forty"),
              ("longitude", JsonVal.num 2)])])])]) = .error issues
        ∧ typeIssue ["framework"] ∈ issues
        ∧ typeIssue ["context", "birthData", "location", "latitude"] ∈ issues :=
  ⟨rfl, validateInput_lists_every_violation _ _ _ _ _ _ rfl rfl rfl rfl rfl rfl rfl⟩

/-- C5 counterexample: a raw request carrying an upstream-results map under an
extra context key is accepted, but the accepted value has the key stripped, so
the round trip is not the identity on that request. -/
theorem validateInput_strips_unknown_keys :
    validateInput upstreamRaw = .ok upstreamParsed
    ∧ inputToJson upstreamParsed ≠ upstreamRaw := by
  constructor
  · rfl
  · simp [inputToJson, contextToJson, upstreamParsed, upstreamRaw]

/-- C5 amended: for every `AgentInput` carrying any combination of the four
optional context fields the schema declares, `validateInput` accepts its
encoding and returns exactly the same value, preserving the presence or
absence of every optional field; context keys outside the schema (such as an
upstream-results map) are stripped rather than preserved. -/
theorem validateRequest_roundtrips_schema_fields (r : AgentInput) :
    validateInput (inputToJson r) = .ok r :=
  validateInput_roundtrip r

theorem execute_ok_of_birthData (r : AgentInput) (bd : BirthData)
    (h : r.context.birthData = some bd) : ∃ o, HumanDesignAgent.execute r = .ok o := by
  unfold HumanDesignAgent.execute
  simp only [validateInput_roundtrip, h]
  rw [validateOutput_roundtrip]
  · exact ⟨_, rfl⟩
  · intro q hq
    simp only [Option.mem_def, Option.some.injEq] at hq
    subst hq
    constructor <;> norm_num

theorem execute_error_of_no_birthData (r : AgentInput) (h : r.context.birthData = none) :
    HumanDesignAgent.execute r
      = .error (.error "Birth data required for Human Design calculation") := by
  unfold HumanDesignAgent.execute
  simp only [validateInput_roundtrip, h]

/-- C10: `HumanDesignAgent.execute` raises an error exactly when the request's
context lacks `birthData`; with birth data present it returns a validated
response, and the error in the missing case is the birth-data message. -/
theorem execute_throws_iff_no_birthData (r : AgentInput) :
    ((∃ e, HumanDesignAgent.execute r = .error e) ↔ r.context.birthData = none)
    ∧ (r.context.birthData = none →
        HumanDesignAgent.execute r
          = .error (.error "Birth data required for Human Design calculation")) := by
  cases hbd : r.context.birthData with
  | none => simp [execute_error_of_no_birthData r hbd]
  | some bd =>
    obtain ⟨o, ho⟩ := execute_ok_of_birthData r bd hbd
    simp [ho]

/-- C6: agent execution is a pure function of its request — equal requests
produce equal outcomes, with no dependence on outside state. -/
theorem execute_deterministic (r₁ r₂ : AgentInput) (h : r₁ = r₂) :
    HumanDesignAgent.execute r₁ = HumanDesignAgent.execute r₂ := by rw [h]

/-- C6 witness: two runs on the same concrete request agree. -/
theorem execute_deterministic_witness :
    reqHD = reqHD ∧ HumanDesignAgent.execute reqHD = HumanDesignAgent.execute reqHD :=
  ⟨rfl, execute_deterministic reqHD reqHD rfl⟩

/-- C2 counterexample: the framework name "alpha" is outside
`HumanDesignAgent.frameworks`, yet `execute` produces a result for a request
naming it (no `UnknownFrameworkError` exists anywhere in the code). -/
theorem execute_runs_unregistered_framework :
    reqAlpha.framework ∉ HumanDesignAgent.frameworks
    ∧ (HumanDesignAgent.execute reqAlpha).isOk = true := by
  refine ⟨by decide, ?_⟩
  obtain ⟨o, ho⟩ := execute_ok_of_birthData reqAlpha bd0 rfl
  rw [ho]
  rfl

/-- C2 amended: neither `validateInput` nor `execute` checks `framework`
membership: any schema-valid request with birth data executes successfully, no
matter its framework string. -/
theorem execute_no_framework_check (r : AgentInput) (bd : BirthData)
    (hfw : r.framework ∉ HumanDesignAgent.frameworks)
    (hbd : r.context.birthData = some bd) :
    (HumanDesignAgent.execute r).isOk = true := by
  obtain ⟨o, ho⟩ := execute_ok_of_birthData r bd hbd
  rw [ho]
  rfl

/-- C2 amended witness: the "alpha" request with birth data executes. -/
theorem execute_no_framework_check_witness :
    reqAlpha.framework ∉ HumanDesignAgent.frameworks
    ∧ reqAlpha.context.birthData = some bd0
    ∧ (HumanDesignAgent.execute reqAlpha).isOk = true :=
  ⟨by decide, rfl, execute_no_framework_check reqAlpha bd0 (by decide) rfl⟩

/-- C8: for every longitude in `[0, 360)`, `longitudeToGate` returns a gate
number in `[1, 64]` and a line number in `[1, 6]`. -/
theorem longitudeToGate_range (longitude : ℚ) (h0 : 0 ≤ longitude) (h1 : longitude < 360) :
    1 ≤ (HumanDesignAgent.longitudeToGate longitude).gate
    ∧ (HumanDesignAgent.longitudeToGate longitude).gate ≤ 64
    ∧ 1 ≤ (HumanDesignAgent.longitudeToGate longitude).line
    ∧ (HumanDesignAgent.longitudeToGate longitude).line ≤ 6 := by
  have hdpos : (0 : ℚ) < 360 / 64 := by norm_num
  have hq0 : 0 ≤ longitude / (360 / 64) := div_nonneg h0 hdpos.le
  have htr : jsTrunc (longitude / (360 / 64)) = ⌊longitude / (360 / 64)⌋ := by
    unfold jsTrunc
    rw [if_neg (not_lt.2 hq0)]
  have hfl0 : 0 ≤ ⌊longitude / (360 / 64)⌋ := Int.floor_nonneg.2 hq0
  have hfl64 : ⌊longitude / (360 / 64)⌋ < 64 := by
    rw [Int.floor_lt]
    rw [div_lt_iff₀ hdpos]
    push_cast
    linarith
  have hmod : jsMod longitude (360 / 64) = (360 / 64) * Int.fract (longitude / (360 / 64)) := by
    unfold jsMod
    rw [htr, Int.fract]
    field_simp
    ring
  have hline : jsMod longitude (360 / 64) / (360 / 64) * 6
      = Int.fract (longitude / (360 / 64)) * 6 := by
    rw [hmod]
    field_simp
  have hfr0 : 0 ≤ Int.fract (longitude / (360 / 64)) * 6 :=
    mul_nonneg (Int.fract_nonneg _) (by norm_num)
  have hfr6 : Int.fract (longitude / (360 / 64)) * 6 < 6 := by
    have := Int.fract_lt_one (longitude / (360 / 64))
    nlinarith
  simp only [HumanDesignAgent.longitudeToGate, hline]
  refine ⟨by omega, by omega, ?_, ?_⟩
  · have := Int.floor_nonneg.2 hfr0
    omega
  · have : ⌊Int.fract (longitude / (360 / 64)) * 6⌋ < 6 := Int.floor_lt.2 (by push_cast; linarith)
    omega

/-- C8 witness: the Sun's mock longitude 120.5 maps to gate 22, line 3. -/
theorem longitudeToGate_range_witness :
    (0 : ℚ) ≤ 120.5 ∧ (120.5 : ℚ) < 360
    ∧ (1 ≤ (HumanDesignAgent.longitudeToGate 120.5).gate
      ∧ (HumanDesignAgent.longitudeToGate 120.5).gate ≤ 64
      ∧ 1 ≤ (HumanDesignAgent.longitudeToGate 120.5).line
      ∧ (HumanDesignAgent.longitudeToGate 120.5).line ≤ 6) :=
  ⟨by decide, by decide, longitudeToGate_range 120.5 (by decide) (by decide)⟩

/-- C9: for every gate list, `determineCenters` returns two duplicate-free,
disjoint lists that together are exactly the nine centers. -/
theorem determineCenters_partitions (gates : List ℤ) :
    (HumanDesignAgent.determineCenters gates).1.Nodup
    ∧ (HumanDesignAgent.determineCenters gates).2.Nodup
    ∧ (∀ c, ¬(c ∈ (HumanDesignAgent.determineCenters gates).1
        ∧ c ∈ (HumanDesignAgent.determineCenters gates).2))
    ∧ (∀ c, c ∈ (HumanDesignAgent.determineCenters gates).1
        ∨ c ∈ (HumanDesignAgent.determineCenters gates).2
        ↔ c ∈ HumanDesignAgent.allCenters)
    ∧ HumanDesignAgent.allCenters
      = ["Head", "Ajna", "Throat", "G Center", "Sacral", "Solar Plexus", "Spleen",
        "Heart/Ego", "Root"] := by
  have hall : HumanDesignAgent.allCenters.Nodup := by decide
  have hsub : List.Sublist (HumanDesignAgent.determineCenters gates).1
      HumanDesignAgent.allCenters :=
    (List.filter_sublist _).map _
  have hucsub : List.Sublist (HumanDesignAgent.determineCenters gates).2
      HumanDesignAgent.allCenters :=
    List.filter_sublist _
  have hspec : (HumanDesignAgent.determineCenters gates).2
      = HumanDesignAgent.allCenters.filter
          (fun c => !((HumanDesignAgent.determineCenters gates).1.contains c)) := rfl
  refine ⟨hall.sublist hsub, hall.sublist hucsub, ?_, ?_, by decide⟩
  · rintro c ⟨h1, h2⟩
    rw [hspec, List.mem_filter] at h2
    have h3 : (!(List.elem c (HumanDesignAgent.determineCenters gates).1)) = true := h2.2
    rw [List.elem_eq_mem, Bool.not_eq_true', decide_eq_false_iff_not] at h3
    exact h3 h1
  · intro c
    constructor
    · rintro (h | h)
      · exact hsub.subset h
      · exact hucsub.subset h
    · intro hc
      by_cases hdc : c ∈ (HumanDesignAgent.determineCenters gates).1
      · exact Or.inl hdc
      · rw [hspec]
        refine Or.inr (List.mem_filter.2 ⟨hc, ?_⟩)
        show (!(List.elem c (HumanDesignAgent.determineCenters gates).1)) = true
        rw [List.elem_eq_mem, Bool.not_eq_true', decide_eq_false_iff_not]
        exact hdc

theorem cycle_closure (stages : List PipelineStage) (c : List String)
    (hch : ∀ p ∈ c.zip (c.rotate 1), DependsOn stages p.1 p.2) :
    ∀ a ∈ c, ∃ b ∈ c, DependsOn stages a b := by
  intro a ha
  obtain ⟨⟨i, hilt⟩, hget⟩ := List.mem_iff_get.1 ha
  have hzlen : (c.zip (c.rotate 1)).length = c.length := by
    rw [List.length_zip, List.length_rotate, min_self]
  have hpair := List.get_mem (c.zip (c.rotate 1)) i (by rw [hzlen]; exact hilt)
  rw [List.get_zip] at hpair
  have hdep := hch _ hpair
  refine ⟨(c.rotate 1).get ⟨i, by rw [List.length_rotate]; exact hilt⟩, ?_, ?_⟩
  · exact List.mem_rotate.1 (List.get_mem _ _ _)
  · rw [← hget]
    exact hdep

theorem planAux_error_of_stuck (stages0 : List PipelineStage) (S : List String)
    (hnd : (stages0.map (fun s => s.name)).Nodup)
    (hclosed : ∀ a ∈ S, ∃ b ∈ S, DependsOn stages0 a b) :
    ∀ (fuel : Nat) (placed : List String) (remaining : List PipelineStage),
      (∀ s ∈ remaining, s ∈ stages0) →
      (∀ a ∈ S, ∃ s ∈ remaining, s.name = a) →
      (∀ a ∈ S, a ∉ placed) →
      S ≠ [] →
      ∃ e, planAux fuel placed remaining = .error e := by
  intro fuel
  induction fuel with
  | zero =>
    intro placed remaining hsub hin hnp hne
    cases remaining with
    | nil =>
      obtain ⟨a, ha⟩ := List.exists_mem_of_ne_nil S hne
      obtain ⟨s, hs, -⟩ := hin a ha
      exact absurd hs (List.not_mem_nil s)
    | cons r rs => exact ⟨_, rfl⟩
  | succ n ih =>
    intro placed remaining hsub hin hnp hne
    cases remaining with
    | nil =>
      obtain ⟨a, ha⟩ := List.exists_mem_of_ne_nil S hne
      obtain ⟨s, hs, -⟩ := hin a ha
      exact absurd hs (List.not_mem_nil s)
    | cons r rs =>
      cases hready : readyStage placed (r :: rs) with
      | none =>
        exact ⟨⟨(r :: rs).map (fun s => s.name)⟩, by simp [planAux, hready]⟩
      | some s =>
        have hready' : List.find? (fun t => t.deps.all (fun d => placed.contains d)) (r :: rs)
            = some s := hready
        have hsmem : s ∈ r :: rs := List.mem_of_find?_eq_some hready'
        have hpred := List.find?_some hready'
        have hnotS : s.name ∉ S := by
          intro hsS
          obtain ⟨b, hbS, t, ht, htn, hbdep⟩ := hclosed s.name hsS
          have hts : t = s := List.inj_on_of_nodup_map hnd ht (hsub s hsmem) htn
          subst hts
          have hb : placed.contains b = true := List.all_eq_true.1 hpred b hbdep
          have hbmem : b ∈ placed := List.elem_iff.1 hb
          exact hnp b hbS hbmem
        have hin' : ∀ a ∈ S,
            ∃ s' ∈ (r :: rs).filter (fun t => t.name != s.name), s'.name = a := by
          intro a ha
          obtain ⟨s', hs', hname⟩ := hin a ha
          refine ⟨s', List.mem_filter.2 ⟨hs', ?_⟩, hname⟩
          have hne2 : s'.name ≠ s.name := by
            intro heq
            apply hnotS
            rw [← heq, hname]
            exact ha
          simpa using hne2
        have hnp' : ∀ a ∈ S, a ∉ s.name :: placed := by
          intro a ha hmem
          rcases List.mem_cons.1 hmem with heq | hmem2
          · apply hnotS
            rw [← heq]
            exact ha
          · exact hnp a ha hmem2
        have hsub' : ∀ t ∈ (r :: rs).filter (fun t => t.name != s.name), t ∈ stages0 :=
          fun t ht => hsub t (List.mem_of_mem_filter ht)
        obtain ⟨e, he⟩ := ih (s.name :: placed) _ hsub' hin' hnp' hne
        exact ⟨e, by simp [planAux, hready, he]⟩

/-- C7: a pipeline whose stage dependency graph contains a cycle fails in the
planning phase with a `CycleError`, and no stage executes (stage names are
distinct, being the keys of the merged context). -/
theorem pipeline_cycle_fails_before_execution (stages : List PipelineStage)
    (hnd : (stages.map (fun s => s.name)).Nodup) (hcyc : HasCycle stages) :
    (∃ e, plan stages = .error e) ∧ (runPipeline stages).2 = [] := by
  obtain ⟨c, hne, hch⟩ := hcyc
  have hclosed : ∀ a ∈ c, ∃ b ∈ c, DependsOn stages a b := cycle_closure stages c hch
  have hin : ∀ a ∈ c, ∃ s ∈ stages, s.name = a := by
    intro a ha
    obtain ⟨b, -, s, hs, hname, -⟩ := hclosed a ha
    exact ⟨s, hs, hname⟩
  obtain ⟨e, he⟩ := planAux_error_of_stuck stages c hnd hclosed stages.length [] stages
    (fun _ hs => hs) hin (fun a _ h => (List.not_mem_nil a) h) hne
  have hplan : plan stages = .error e := he
  refine ⟨⟨e, hplan⟩, ?_⟩
  unfold runPipeline
  rw [hplan]

/-- C7 witness: the spec's `A -> B -> A` pipeline fails planning with a
`CycleError` and executes nothing. -/
theorem pipeline_cycle_fails_before_execution_witness :
    (cyclePipeline.map (fun s => s.name)).Nodup
    ∧ HasCycle cyclePipeline
    ∧ (∃ e, plan cyclePipeline = .error e) ∧ (runPipeline cyclePipeline).2 = [] :=
  ⟨by decide, ⟨["A", "B"], by decide, by decide⟩,
    pipeline_cycle_fails_before_execution cyclePipeline (by decide)
      ⟨["A", "B"], by decide, by decide⟩⟩
